/-
  Verification of the campaign-generation pipeline (src/lib/agent.ts).

  Shallow embedding: the four pure stages (buildStrategy, buildAssets,
  buildCalendar, export serializers) are translated into executable Lean
  definitions.  Timestamps are modelled as natural numbers of seconds since
  the Unix epoch (the runtime timezone is taken to be UTC, matching the
  spec's "UTC-normalized day boundary"); ISO-8601 serialization is
  implemented directly so that the string-valued `date` field of calendar
  events is produced exactly as `Dayjs.toISOString` produces it for
  whole-second instants.
-/
import Mathlib

set_option maxRecDepth 10000

namespace Agent

/-! ### Date arithmetic (model of the dayjs operations used by the source) -/

/-- Civil date (year, month, day) from a count of days since 1970-01-01
    (proleptic Gregorian, non-negative days only). -/
def civilFromDays (z : Nat) : Nat × Nat × Nat :=
  let z' := z + 719468
  let era := z' / 146097
  let doe := z' % 146097
  let yoe := (doe - doe / 1460 + doe / 36524 - doe / 146096) / 365
  let y := yoe + era * 400
  let doy := doe - (365 * yoe + yoe / 4 - yoe / 100)
  let mp := (5 * doy + 2) / 153
  let d := doy - (153 * mp + 2) / 5 + 1
  let m := if mp < 10 then mp + 3 else mp - 9
  (if m ≤ 2 then y + 1 else y, m, d)

/-- Days since 1970-01-01 of a civil date (inverse of `civilFromDays` on
    valid dates at or after the epoch). -/
def daysFromCivil (y m d : Nat) : Nat :=
  let y' := if m ≤ 2 then y - 1 else y
  let era := y' / 400
  let yoe := y' % 400
  let mp := if 2 < m then m - 3 else m + 9
  let doy := (153 * mp + 2) / 5 + d - 1
  let doe := yoe * 365 + yoe / 4 - yoe / 100 + doy
  era * 146097 + doe - 719468

/-- Two-digit zero-padded decimal. -/
def pad2 (n : Nat) : String :=
  if n < 10 then "0" ++ toString n else toString n

/-- Four-digit zero-padded decimal. -/
def pad4 (n : Nat) : String :=
  if n < 10 then "000" ++ toString n
  else if n < 100 then "00" ++ toString n
  else if n < 1000 then "0" ++ toString n
  else toString n

/-- `Dayjs.toISOString` for a whole-second UTC instant
    (`YYYY-MM-DDTHH:mm:ss.000Z`). -/
def toISOString (t : Nat) : String :=
  let ymd := civilFromDays (t / 86400)
  let secs := t % 86400
  pad4 ymd.1 ++ "-" ++ pad2 ymd.2.1 ++ "-" ++ pad2 ymd.2.2 ++ "T" ++
    pad2 (secs / 3600) ++ ":" ++ pad2 (secs % 3600 / 60) ++ ":" ++
    pad2 (secs % 60) ++ ".000Z"

/-- `format('YYYYMMDD[T]HHmmss[Z]')` in UTC for a whole-second instant. -/
def icsStamp (t : Nat) : String :=
  let ymd := civilFromDays (t / 86400)
  let secs := t % 86400
  pad4 ymd.1 ++ pad2 ymd.2.1 ++ pad2 ymd.2.2 ++ "T" ++
    pad2 (secs / 3600) ++ pad2 (secs % 3600 / 60) ++ pad2 (secs % 60) ++ "Z"

/-! ### Character-level string operations

The JS string operations the source uses (`split`, `replace`,
`toLowerCase`, `includes`, regex tests) are modelled directly over
character lists so that every definition evaluates by kernel reduction. -/

/-- Split `cs` at the first occurrence of `sep`: the part before it and
    the part after it, or `none` when `sep` does not occur. -/
def findSplit (sep : List Char) : List Char → Option (List Char × List Char)
  | [] => none
  | c :: rest =>
    if sep.isPrefixOf (c :: rest) then some ([], (c :: rest).drop sep.length)
    else match findSplit sep rest with
      | some (pre, post) => some (c :: pre, post)
      | none => none

/-- Fuel-driven splitting loop; the fuel `cs.length + 1` always suffices
    for a non-empty separator. -/
def splitLoop (sep : List Char) : Nat → List Char → List (List Char)
  | 0, cs => [cs]
  | fuel + 1, cs =>
    match findSplit sep cs with
    | none => [cs]
    | some (pre, post) => pre :: splitLoop sep fuel post

/-- `s.split(sep)` for a non-empty literal separator. -/
def splitOnStr (s sep : String) : List String :=
  (splitLoop sep.toList (s.toList.length + 1) s.toList).map String.mk

/-- `s.toLowerCase()` (ASCII case model). -/
def jsToLower (s : String) : String := String.mk (s.toList.map Char.toLower)

/-- Containment of `needle` as a contiguous subsequence of `cs`. -/
def containsSeq (needle : List Char) : List Char → Bool
  | [] => needle.isEmpty
  | c :: rest => needle.isPrefixOf (c :: rest) || containsSeq needle rest

/-- Parse a decimal numeral made only of ASCII digits. -/
def digits? (s : String) : Option Nat :=
  if s ≠ "" ∧ s.toList.all (fun c => c.isDigit) then
    some (s.toList.foldl (fun n c => n * 10 + (c.toNat - 48)) 0)
  else none

/-- Parse an ISO-8601 UTC timestamp of the shape emitted by `toISOString`
    (`YYYY-MM-DDTHH:mm:ss.SSSZ`), to whole seconds since the epoch.  This is
    the model of `dayjs(isoString)` on the strings the pipeline itself
    produces; other strings parse to `none` (dayjs "Invalid Date"). -/
def parseIso (s : String) : Option Nat :=
  match splitOnStr s "T" with
  | [datePart, timePart] =>
    match splitOnStr datePart "-" with
    | [ys, ms, ds] =>
      match splitOnStr timePart "Z" with
      | [clock, ""] =>
        let hms := (splitOnStr clock ".").headD ""
        match splitOnStr hms ":" with
        | [hs, mins, ss] =>
          match digits? ys, digits? ms, digits? ds,
                digits? hs, digits? mins, digits? ss with
          | some y, some mo, some d, some h, some mi, some sec =>
            if 1 ≤ mo ∧ mo ≤ 12 ∧ 1 ≤ d ∧ h < 24 ∧ mi < 60 ∧ sec < 60 then
              some (daysFromCivil y mo d * 86400 + h * 3600 + mi * 60 + sec)
            else none
          | _, _, _, _, _, _ => none
        | _ => none
      | _ => none
    | _ => none
  | _ => none

/-! ### Generic string helpers used by the source -/

/-- `s.charAt(0).toUpperCase() + s.slice(1)` (ASCII case model). -/
def sentenceCase (s : String) : String :=
  match s.toList with
  | [] => ""
  | c :: rest => String.mk (c.toUpper :: rest)

/-- Case-insensitive substring test: model of `str.match(/needle/i) !== null`
    for a literal, already-lowercase `needle`. -/
def containsCI (hay needle : String) : Bool :=
  containsSeq needle.toList (jsToLower hay).toList

/-- True for the characters the slug keeps: `[a-z0-9]`. -/
def isSlugChar (c : Char) : Bool :=
  (Char.ofNat 97 ≤ c ∧ c ≤ Char.ofNat 122) ∨ (Char.ofNat 48 ≤ c ∧ c ≤ Char.ofNat 57)

/-- Replace every maximal run of non-`[a-z0-9]` characters by a single
    hyphen (`replace(/[^a-z0-9]+/g, '-')` on a lowercased string); the
    Boolean records whether the previous character belonged to such a run. -/
def collapseRunsAux : Bool → List Char → List Char
  | _, [] => []
  | prevSep, c :: rest =>
    if isSlugChar c then c :: collapseRunsAux false rest
    else if prevSep then collapseRunsAux true rest
    else '-' :: collapseRunsAux true rest

def collapseRuns (cs : List Char) : List Char := collapseRunsAux false cs

/-- `slugify` from the source: lowercase, collapse non-alphanumeric runs to
    single hyphens, strip one leading and one trailing hyphen
    (`replace(/(^-|-$)/g, '')`), truncate to 60 characters. -/
def slugify (s : String) : String :=
  let collapsed := collapseRuns (jsToLower s).toList
  let noLead := if collapsed.headD ' ' = '-' then collapsed.tail else collapsed
  let noTrail := if noLead.getLastD ' ' = '-' then noLead.dropLast else noLead
  String.mk (noTrail.take 60)

/-! ### URL model (the parts of WHATWG `URL` / `URLSearchParams` the source uses) -/

/-- The UTF-8 bytes of one character. -/
def utf8Bytes (c : Char) : List Nat :=
  let n := c.toNat
  if n < 128 then [n]
  else if n < 2048 then [192 + n / 64, 128 + n % 64]
  else if n < 65536 then [224 + n / 4096, 128 + n / 64 % 64, 128 + n % 64]
  else [240 + n / 262144, 128 + n / 4096 % 64, 128 + n / 64 % 64, 128 + n % 64]

/-- One uppercase hexadecimal digit. -/
def hexDigit (n : Nat) : String :=
  if n < 10 then toString n else String.singleton (Char.ofNat (55 + n))

/-- Two uppercase hexadecimal digits of a byte. -/
def pad2Hex (n : Nat) : String := hexDigit (n / 16) ++ hexDigit (n % 16)

/-- `application/x-www-form-urlencoded` escape of one character
    (unreserved characters pass through, space becomes `+`, everything else
    is percent-encoded byte-wise, uppercase hex). -/
def formEncodeChar (c : Char) : String :=
  if c.isAlphanum ∨ c = '-' ∨ c = '.' ∨ c = '_' ∨ c = '*' then String.singleton c
  else if c = ' ' then "+"
  else String.join ((utf8Bytes c).map (fun b => "%" ++ pad2Hex b))

def formEncode (s : String) : String :=
  String.join (s.toList.map formEncodeChar)

/-- Structured absolute URL: `scheme://host` plus path, query (ordered
    key/value pairs, kept in their serialized form), and fragment. -/
structure UrlParts where
  scheme : String
  host : String
  path : String
  query : List (String × String)
  fragment : String
  deriving Repr, DecidableEq

/-- Split a string at the first occurrence of a one-character separator;
    `none` if the separator does not occur. -/
def splitFirst (s : String) (sep : String) : Option (String × String) :=
  match splitOnStr s sep with
  | [] => none
  | [_] => none
  | a :: rest => some (a, String.intercalate sep rest)

def parseQuery (q : String) : List (String × String) :=
  if q = "" then []
  else (splitOnStr q "&").map (fun kv =>
    match splitFirst kv "=" with
    | some (k, v) => (k, v)
    | none => (kv, ""))

/-- Model of `new URL(s)` restricted to `scheme://…` absolute URLs: parses
    scheme, authority, path (defaulting to `/` as WHATWG does for special
    schemes), query and fragment; returns `none` (the thrown `TypeError`)
    when the shape is not present. -/
def parseUrl (s : String) : Option UrlParts :=
  match splitFirst s "://" with
  | none => none
  | some (scheme, rest) =>
    if scheme ≠ "" ∧ scheme.toList.all (fun c => c.isAlpha) ∧ rest ≠ "" then
      let noFrag := match splitFirst rest "#" with
        | some (a, f) => (a, "#" ++ f)
        | none => (rest, "")
      let noQuery := match splitFirst noFrag.1 "?" with
        | some (a, q) => (a, parseQuery q)
        | none => (noFrag.1, [])
      let hostPath := match splitFirst noQuery.1 "/" with
        | some (h, p) => (h, "/" ++ p)
        | none => (noQuery.1, "/")
      some { scheme := scheme, host := hostPath.1, path := hostPath.2,
             query := noQuery.2, fragment := noFrag.2 }
    else none

/-- `URLSearchParams.set`: replace the value at the first occurrence of the
    key (dropping any later occurrences), or append the pair at the end. -/
def searchParamsSet : List (String × String) → String → String → List (String × String)
  | [], k, v => [(k, v)]
  | (k', v') :: rest, k, v =>
    if k' = k then (k, v) :: rest.filter (fun p => p.1 ≠ k)
    else (k', v') :: searchParamsSet rest k v

/-- `URL.toString` for the model. -/
def urlToString (u : UrlParts) : String :=
  u.scheme ++ "://" ++ u.host ++ u.path ++
    (if u.query = [] then ""
     else "?" ++ String.intercalate "&" (u.query.map (fun p => p.1 ++ "=" ++ p.2))) ++
    u.fragment

structure UtmParams where
  source : String
  medium : String
  campaign : String
  content : String
  deriving Repr, DecidableEq

/-- `buildUtmUrl` from the source: parse the base URL, set the four
    `utm_*` query parameters (`utm_content` only when `content` is
    non-empty, mirroring `if (params.content)`), and serialize; on a parse
    failure return the base string unchanged (the `catch` branch). -/
def buildUtmUrl (baseUrl : String) (params : UtmParams) : String :=
  match parseUrl baseUrl with
  | some u =>
    let q := searchParamsSet u.query "utm_source" (formEncode params.source)
    let q := searchParamsSet q "utm_medium" (formEncode params.medium)
    let q := searchParamsSet q "utm_campaign" (formEncode params.campaign)
    let q := if params.content ≠ "" then
        searchParamsSet q "utm_content" (formEncode params.content)
      else q
    urlToString { u with query := q }
  | none => baseUrl

/-! ### Data model (src/lib/agent.ts types) -/

/-- The fixed six-channel vocabulary of `CampaignInput.channels`. -/
inductive Channel where
  | website | email | linkedin | xTwitter | instagram | ads
  deriving Repr, DecidableEq

/-- The string-literal tag of a channel, as written in the source. -/
def channelName : Channel → String
  | .website => "Website"
  | .email => "Email"
  | .linkedin => "LinkedIn"
  | .xTwitter => "X/Twitter"
  | .instagram => "Instagram"
  | .ads => "Ads"

/-- `CampaignInput`.  `startDate` is the instant (seconds since the epoch)
    of the supplied `Dayjs`; `landingUrl` is a plain string where the empty
    string covers both `undefined` and `''` (the source only tests its
    truthiness). -/
structure CampaignInput where
  goal : String
  productName : String
  productDescription : String
  audience : String
  tone : String
  channels : List Channel
  budget : Nat
  startDate : Nat
  durationDays : Nat
  landingUrl : String
  deriving Repr, DecidableEq

structure ChannelPlan where
  objective : String
  strategy : String
  kpis : List String
  deriving Repr, DecidableEq

/-- `Strategy`; `channelsPlan` models the JS record as an ordered
    association list with unique keys (insertion order, overwrite in
    place). -/
structure Strategy where
  primaryMessage : String
  valueProps : List String
  personaSummary : String
  channelsPlan : List (String × ChannelPlan)
  deriving Repr, DecidableEq

structure EmailAsset where
  subject : String
  preview : String
  body : String
  deriving Repr, DecidableEq

structure SocialPost where
  channel : String
  text : String
  deriving Repr, DecidableEq

/-- `Assets`.  The source always builds exactly two emails and indexes
    them as `emails[0]` / `emails[1]`, so the pair type records that. -/
structure Assets where
  headlines : List String
  adCopy : List String
  emails : EmailAsset × EmailAsset
  social : List SocialPost
  deriving Repr, DecidableEq

structure CalendarEvent where
  date : String
  channel : String
  title : String
  notes : String
  deriving Repr, DecidableEq

/-! ### Stage 1: buildStrategy -/

/-- JS record assignment `m[k] = v`: overwrite in place when the key
    exists, append otherwise (property insertion order is preserved). -/
def recordSet {α : Type} : List (String × α) → String → α → List (String × α)
  | [], k, v => [(k, v)]
  | (k', v') :: rest, k, v =>
    if k' = k then (k, v) :: rest else (k', v') :: recordSet rest k v

/-- The fixed per-channel table `base` inside `buildStrategy`. -/
def basePlan : Channel → ChannelPlan
  | .website => ⟨"Convert qualified traffic",
      "Update hero, add social proof, launch comparison page",
      ["Signup rate", "Bounce rate"]⟩
  | .email => ⟨"Nurture and activate",
      "3-email sequence: insight, case study, offer",
      ["Open rate", "CTR", "Activations"]⟩
  | .linkedin => ⟨"Educate and build trust",
      "Founder POV, carousel explainer, customer quote",
      ["Impressions", "Engagement rate"]⟩
  | .xTwitter => ⟨"Spark conversation",
      "Thread on problem framing + micro-demos",
      ["Replies", "Profile visits"]⟩
  | .instagram => ⟨"Show product visually",
      "Short reels of ?before/after? analytics moments",
      ["Views", "Saves"]⟩
  | .ads => ⟨"Capture demand",
      "Search on intent + retargeting with proof",
      ["CPC", "CVR"]⟩

/-- The fixed `valueProps` list returned by `buildStrategy`. -/
def standardValueProps : List String :=
  ["Set up in minutes, not weeks",
   "Privacy-first by design",
   "Crystal-clear funnels and cohort analysis",
   "Actionable AI insights, not vanity metrics"]

def buildStrategy (input : CampaignInput) : Strategy :=
  let valueProps := standardValueProps
  let personaSummary :=
    "For " ++ input.audience ++ ". They seek outcomes: " ++
    sentenceCase input.goal ++
    ". They value credibility, proof, and time-to-value. Tone: " ++
    input.tone ++ "."
  let channelsPlan := input.channels.foldl
    (fun m ch => recordSet m (channelName ch) (basePlan ch)) []
  let primaryMessage :=
    input.productName ++ ": " ++ sentenceCase input.tone ++ " solution to " ++
    jsToLower input.goal ++ " for " ++ jsToLower input.audience ++ "."
  { primaryMessage := primaryMessage, valueProps := valueProps,
    personaSummary := personaSummary, channelsPlan := channelsPlan }

/-! ### Stage 2: buildAssets -/

/-- `bullets` from the source.  NOTE: the source file as shipped prefixes
    each line with `"? "` (a corrupted character), not the bullet `"• "`. -/
def bullets (strings : List String) : String :=
  String.intercalate "\n" (strings.map (fun s => "? " ++ s))

/-- JS `valueProps[i]` interpolated into a template literal: an
    out-of-range access interpolates the string `"undefined"`. -/
def vp (strategy : Strategy) (i : Nat) : String :=
  strategy.valueProps.getD i "undefined"

def buildAssets (input : CampaignInput) (strategy : Strategy) : Assets :=
  let brand := input.productName
  let headlines :=
    [brand ++ " ? " ++ sentenceCase input.goal,
     "From guesswork to growth with " ++ brand,
     brand ++ ": analytics that turns insight into action"]
  let adCopy :=
    [brand ++ " helps " ++ jsToLower input.audience ++ " " ++
       jsToLower input.goal ++ ". " ++ vp strategy 2 ++ ". Start in minutes.",
     "Stop drowning in dashboards. " ++ brand ++
       " surfaces what moves the needle. " ++ vp strategy 3 ++ "."]
  let emails :=
    (⟨brand ++ " in 3 minutes: see what matters",
      "A quick walkthrough and a real case study",
      "Hi there,\n\nIf analytics feels noisy, you're not alone. " ++ brand ++
        " focuses on outcomes.\n\nWhy teams switch:\n" ++
        bullets strategy.valueProps ++
        "\n\nWant a 3-minute walkthrough? Reply with \"demo\" and I?ll share a short video.\n\nBest,\n" ++
        brand ++ " Team"⟩,
     ⟨"How " ++ brand ++ " users improved activation by 24%",
      "A simple cohort insight changed their onboarding",
      "Quick story: a SaaS team found a 24% activation lift after seeing a drop-off cohort at Day 2. They added an in-app nudge based on our insight.\n\nIt took an afternoon. Results stuck.\n\nCurious what your data says? Happy to take a look and share a 1-pager."⟩)
  let social :=
    (if Channel.linkedin ∈ input.channels then
       [⟨"LinkedIn", "Most analytics tools show everything. " ++ brand ++
          " shows what matters. " ++ vp strategy 3 ++ ". " ++
          strategy.primaryMessage⟩]
     else []) ++
    (if Channel.xTwitter ∈ input.channels then
       [⟨"X/Twitter", "Funnels, cohorts, activation. Keep it simple. " ++
          brand ++ " ? outcomes > dashboards. #saas #growth"⟩]
     else []) ++
    (if Channel.instagram ∈ input.channels then
       [⟨"Instagram", "Before ? drowning in charts. After ? one insight, one action. " ++
          brand ++ "."⟩]
     else [])
  { headlines := headlines, adCopy := adCopy, emails := emails, social := social }

/-! ### Stage 3: buildCalendar -/

/-- `input.startDate.startOf('day')` (runtime timezone UTC). -/
def startOfDay (t : Nat) : Nat := t / 86400 * 86400

/-- The `utm_medium` choice inside `push`:
    `channel.match(/Email/i) ? 'email' : channel.match(/Ads/i) ? 'cpc' : 'social'`. -/
def utmMedium (channel : String) : String :=
  if containsCI channel "email" then "email"
  else if containsCI channel "ads" then "cpc"
  else "social"

/-- The `push` closure of `buildCalendar`: builds one event at a whole-day
    offset from the campaign start, appending the UTM link line to the
    notes for non-Website channels when a landing URL is set.  The offset
    is returned alongside the event (the event's `date` string is exactly
    `toISOString` of start + offset days). -/
def pushEvent (input : CampaignInput) (offset : Nat) (channel title notes : String) :
    Nat × CalendarEvent :=
  let start := startOfDay input.startDate
  let fullNotes :=
    if input.landingUrl ≠ "" ∧ channel ≠ "Website" then
      notes ++ "\nLink: " ++ buildUtmUrl input.landingUrl
        ⟨jsToLower channel, utmMedium channel, slugify input.goal, slugify title⟩
    else notes
  (offset, { date := toISOString (start + offset * 86400), channel := channel,
             title := title, notes := fullNotes })

/-- The full generation sequence of `buildCalendar`, before duration
    filtering: kickoff, social posts, email cadence, ads start, weekly
    recap, each paired with its whole-day offset.  The mutable `day`
    counter of the social-post loop is the fold state. -/
def generatedPairs (input : CampaignInput) (assets : Assets) : List (Nat × CalendarEvent) :=
  let kickoff := [pushEvent input 0 "Website" "Hero + proof update" "Add headline and 3 logos"]
  let socialState := assets.social.foldl
    (fun (st : Nat × List (Nat × CalendarEvent)) p =>
      (st.1 + 2, st.2 ++ [pushEvent input st.1 p.channel "Social post" p.text]))
    (1, [])
  let emailEvents :=
    if Channel.email ∈ input.channels then
      [pushEvent input 2 "Email" assets.emails.1.subject assets.emails.1.preview,
       pushEvent input 9 "Email" assets.emails.2.subject assets.emails.2.preview]
    else []
  let adsEvents :=
    if Channel.ads ∈ input.channels then
      [pushEvent input 1 "Ads" "Launch search + retargeting" "Focus on high-intent terms"]
    else []
  let recap := [pushEvent input 7 "LinkedIn" "Carousel: what we learned" "Founder POV, 5 slides"]
  kickoff ++ socialState.2 ++ emailEvents ++ adsEvents ++ recap

/-- `buildCalendar`: generate, then keep within duration.  The source's
    filter `dayjs(ev.date).diff(start, 'day') <= days` is expressed on the
    generated whole-day offset, which is exactly what that `diff` recovers
    (each event's `date` is the ISO serialization of start + offset days,
    and dayjs ISO serialization round-trips the instant exactly). -/
def buildCalendar (input : CampaignInput) (_strategy : Strategy) (assets : Assets) :
    List CalendarEvent :=
  ((generatedPairs input assets).filter
    (fun oe => oe.1 ≤ input.durationDays)).map Prod.snd

/-! ### Stage 4: export serializers -/

/-- `value.replace(/"/g, '""')`: double every double quote. -/
def doubleQuotes (value : String) : String :=
  String.mk (value.toList.foldr
    (fun c acc => if c = '"' then '"' :: '"' :: acc else c :: acc) [])

def csvEscape (value : String) : String :=
  if value.toList.contains '"' ∨ value.toList.contains ',' ∨ value.toList.contains '\n' then
    "\"" ++ doubleQuotes value ++ "\""
  else value

def toCalendarCsv (events : List CalendarEvent) : String :=
  let header := ["date", "channel", "title", "notes"]
  let lines := events.foldl
    (fun acc ev =>
      acc ++ [String.intercalate "," ([ev.date, ev.channel, ev.title, ev.notes].map csvEscape)])
    [String.intercalate "," header]
  String.intercalate "\n" lines

/-- `notes.replace(/\n/g, ' ')`: collapse embedded newlines to spaces. -/
def newlinesToSpaces (s : String) : String :=
  String.mk (s.toList.map (fun c => if c = '\n' then ' ' else c))

/-- `dayjs(s).utc().format('YYYYMMDD[T]HHmmss[Z]')`: format a parsed ISO
    date; an unparseable string formats as `Invalid Date`. -/
def icsDt (s : String) : String :=
  match parseIso s with
  | some t => icsStamp t
  | none => "Invalid Date"

/-- Same, after `add(1, 'hour')`. -/
def icsDtEnd (s : String) : String :=
  match parseIso s with
  | some t => icsStamp (t + 3600)
  | none => "Invalid Date"

def buildIcs (events : List CalendarEvent) : String :=
  let init := ["BEGIN:VCALENDAR", "VERSION:2.0", "PRODID:-//Campaign Agent//EN"]
  let withEvents := events.enum.foldl
    (fun acc ie =>
      acc ++
      ["BEGIN:VEVENT",
       "UID:" ++ toString ie.1 ++ "-" ++ icsDt ie.2.date ++ "@campaign-agent",
       "DTSTAMP:" ++ icsDt ie.2.date,
       "DTSTART:" ++ icsDt ie.2.date,
       "DTEND:" ++ icsDtEnd ie.2.date,
       "SUMMARY:" ++ ie.2.channel ++ ": " ++ ie.2.title,
       "DESCRIPTION:" ++ newlinesToSpaces ie.2.notes,
       "END:VEVENT"])
    init
  String.intercalate "\n" (withEvents ++ ["END:VCALENDAR"])

structure ExportBundle where
  input : CampaignInput
  strategy : Strategy
  assets : Assets
  calendar : List CalendarEvent
  ics : String
  csvCalendar : String
  deriving Repr, DecidableEq

def buildExportBundle (input : CampaignInput) (strategy : Strategy) (assets : Assets)
    (calendar : List CalendarEvent) : ExportBundle :=
  { input := input, strategy := strategy, assets := assets, calendar := calendar,
    ics := buildIcs calendar, csvCalendar := toCalendarCsv calendar }

/-! ### Concrete instances used by witnesses and counterexamples -/

/-- The spec's end-to-end example scenario (fields the scenario leaves
    open are filled with arbitrary values). -/
def exampleInput : CampaignInput :=
  { goal := "Increase signups by 30% in 30 days", productName := "Acme Analytics",
    productDescription := "", audience := "product teams", tone := "confident",
    channels := [.website, .email], budget := 0, startDate := 1704067200,
    durationDays := 14, landingUrl := "" }

def exampleStrategy : Strategy := buildStrategy exampleInput

def exampleAssets : Assets := buildAssets exampleInput exampleStrategy

def exampleCalendar : List CalendarEvent :=
  buildCalendar exampleInput exampleStrategy exampleAssets

/-- A run with `durationDays = 7` and no optional channels: the
    unconditional day-7 LinkedIn recap lands exactly on the window edge. -/
def edgeInput : CampaignInput :=
  { goal := "Launch", productName := "P", productDescription := "",
    audience := "devs", tone := "bold", channels := [], budget := 0,
    startDate := 0, durationDays := 7, landingUrl := "" }

def edgeCalendar : List CalendarEvent :=
  buildCalendar edgeInput (buildStrategy edgeInput)
    (buildAssets edgeInput (buildStrategy edgeInput))

/-- A run with a landing URL set, exercising the UTM augmentation. -/
def utmInput : CampaignInput :=
  { goal := "Grow signups", productName := "P", productDescription := "",
    audience := "devs", tone := "bold", channels := [.email], budget := 0,
    startDate := 0, durationDays := 30, landingUrl := "https://example.com" }

def utmCalendar : List CalendarEvent :=
  buildCalendar utmInput (buildStrategy utmInput)
    (buildAssets utmInput (buildStrategy utmInput))

/-! ### Helper lemmas: loops to closed forms -/

theorem foldl_push_map {α β : Type} (g : α → β) (l : List α) :
    ∀ acc : List β, l.foldl (fun a x => a ++ [g x]) acc = acc ++ l.map g := by
  induction l with
  | nil => intro acc; simp
  | cons x xs ih => intro acc; simp [ih]

theorem foldl_push_flat {α β : Type} (g : α → List β) (l : List α) :
    ∀ acc : List β, l.foldl (fun a x => a ++ g x) acc = acc ++ l.flatMap g := by
  induction l with
  | nil => intro acc; simp
  | cons x xs ih => intro acc; simp [ih]

theorem socialFoldl_eq (input : CampaignInput) (social : List SocialPost) :
    ∀ (k : Nat) (acc : List (Nat × CalendarEvent)),
      social.foldl
        (fun (st : Nat × List (Nat × CalendarEvent)) p =>
          (st.1 + 2, st.2 ++ [pushEvent input st.1 p.channel "Social post" p.text]))
        (1 + 2 * k, acc)
      = (1 + 2 * (k + social.length),
         acc ++ (social.enumFrom k).map
           (fun ip => pushEvent input (1 + 2 * ip.1) ip.2.channel "Social post" ip.2.text)) := by
  induction social with
  | nil => intro k acc; simp
  | cons p rest ih =>
    intro k acc
    have h1 : (1 + 2 * k) + 2 = 1 + 2 * (k + 1) := by ring
    simp only [List.foldl_cons, h1, ih (k + 1), List.enumFrom, List.map_cons]
    refine Prod.ext ?_ ?_
    · simp; ring
    · simp

theorem generatedPairs_eq (input : CampaignInput) (assets : Assets) :
    generatedPairs input assets =
      pushEvent input 0 "Website" "Hero + proof update" "Add headline and 3 logos" ::
      (assets.social.enum.map
          (fun ip => pushEvent input (1 + 2 * ip.1) ip.2.channel "Social post" ip.2.text) ++
        ((if Channel.email ∈ input.channels then
            [pushEvent input 2 "Email" assets.emails.1.subject assets.emails.1.preview,
             pushEvent input 9 "Email" assets.emails.2.subject assets.emails.2.preview]
          else []) ++
         ((if Channel.ads ∈ input.channels then
             [pushEvent input 1 "Ads" "Launch search + retargeting" "Focus on high-intent terms"]
           else []) ++
          [pushEvent input 7 "LinkedIn" "Carousel: what we learned" "Founder POV, 5 slides"]))) := by
  have h := socialFoldl_eq input assets.social 0 []
  simp only [Nat.mul_zero, Nat.add_zero, Nat.zero_add] at h
  unfold generatedPairs
  rw [h, ← List.enum_eq_enumFrom]
  simp

theorem pushEvent_fst (input : CampaignInput) (off : Nat) (c t n : String) :
    (pushEvent input off c t n).1 = off := rfl

theorem pushEvent_date (input : CampaignInput) (off : Nat) (c t n : String) :
    (pushEvent input off c t n).2.date =
      toISOString (startOfDay input.startDate + off * 86400) := rfl

theorem pushEvent_channel (input : CampaignInput) (off : Nat) (c t n : String) :
    (pushEvent input off c t n).2.channel = c := rfl

theorem pushEvent_title (input : CampaignInput) (off : Nat) (c t n : String) :
    (pushEvent input off c t n).2.title = t := rfl

theorem pushEvent_notes (input : CampaignInput) (off : Nat) (c t n : String) :
    (pushEvent input off c t n).2.notes =
      if input.landingUrl ≠ "" ∧ c ≠ "Website" then
        n ++ "\nLink: " ++ buildUtmUrl input.landingUrl
          ⟨jsToLower c, utmMedium c, slugify input.goal, slugify t⟩
      else n := rfl

/-- Every generated pair is a `pushEvent` at its own offset. -/
theorem mem_generatedPairs (input : CampaignInput) (assets : Assets)
    (oe : Nat × CalendarEvent) (h : oe ∈ generatedPairs input assets) :
    ∃ c t n, oe = pushEvent input oe.1 c t n := by
  have step : ∀ (k : Nat) (c t n : String), oe = pushEvent input k c t n →
      ∃ c' t' n', oe = pushEvent input oe.1 c' t' n' := by
    intro k c t n hh
    exact ⟨c, t, n, by rw [hh]; rfl⟩
  rw [generatedPairs_eq] at h
  rcases List.mem_cons.mp h with h | h
  · exact step _ _ _ _ h
  rcases List.mem_append.mp h with h | h
  · obtain ⟨ip, _, hip⟩ := List.mem_map.mp h
    exact step _ _ _ _ hip.symm
  rcases List.mem_append.mp h with h | h
  · by_cases he : Channel.email ∈ input.channels
    · rw [if_pos he] at h
      rcases List.mem_cons.mp h with h | h
      · exact step _ _ _ _ h
      rcases List.mem_cons.mp h with h | h
      · exact step _ _ _ _ h
      · exact absurd h (List.not_mem_nil oe)
    · rw [if_neg he] at h
      exact absurd h (List.not_mem_nil oe)
  rcases List.mem_append.mp h with h | h
  · by_cases ha : Channel.ads ∈ input.channels
    · rw [if_pos ha] at h
      rcases List.mem_cons.mp h with h | h
      · exact step _ _ _ _ h
      · exact absurd h (List.not_mem_nil oe)
    · rw [if_neg ha] at h
      exact absurd h (List.not_mem_nil oe)
  · rcases List.mem_cons.mp h with h | h
    · exact step _ _ _ _ h
    · exact absurd h (List.not_mem_nil oe)

/-- Channel analysis of the generated pairs. -/
theorem mem_generatedPairs_channel (input : CampaignInput) (assets : Assets)
    (oe : Nat × CalendarEvent) (h : oe ∈ generatedPairs input assets) :
    oe.2.channel = "Website" ∨
    (∃ p ∈ assets.social, oe.2.channel = p.channel) ∨
    (Channel.email ∈ input.channels ∧ oe.2.channel = "Email") ∨
    (Channel.ads ∈ input.channels ∧ oe.2.channel = "Ads") ∨
    oe.2.channel = "LinkedIn" := by
  have mem_social : ∀ ip : Nat × SocialPost, ip ∈ assets.social.enum →
      ip.2 ∈ assets.social := by
    intro ip hmem
    have h2 : ip.2 ∈ assets.social.enum.map Prod.snd := List.mem_map_of_mem Prod.snd hmem
    rwa [List.enum_map_snd] at h2
  rw [generatedPairs_eq] at h
  rcases List.mem_cons.mp h with h | h
  · exact Or.inl (by rw [h]; rfl)
  rcases List.mem_append.mp h with h | h
  · obtain ⟨ip, hmem, hip⟩ := List.mem_map.mp h
    exact Or.inr (Or.inl ⟨ip.2, mem_social ip hmem, by rw [← hip]; rfl⟩)
  rcases List.mem_append.mp h with h | h
  · by_cases he : Channel.email ∈ input.channels
    · rw [if_pos he] at h
      rcases List.mem_cons.mp h with h | h
      · exact Or.inr (Or.inr (Or.inl ⟨he, by rw [h]; rfl⟩))
      rcases List.mem_cons.mp h with h | h
      · exact Or.inr (Or.inr (Or.inl ⟨he, by rw [h]; rfl⟩))
      · exact absurd h (List.not_mem_nil oe)
    · rw [if_neg he] at h
      exact absurd h (List.not_mem_nil oe)
  rcases List.mem_append.mp h with h | h
  · by_cases ha : Channel.ads ∈ input.channels
    · rw [if_pos ha] at h
      rcases List.mem_cons.mp h with h | h
      · exact Or.inr (Or.inr (Or.inr (Or.inl ⟨ha, by rw [h]; rfl⟩)))
      · exact absurd h (List.not_mem_nil oe)
    · rw [if_neg ha] at h
      exact absurd h (List.not_mem_nil oe)
  · rcases List.mem_cons.mp h with h | h
    · exact Or.inr (Or.inr (Or.inr (Or.inr (by rw [h]; rfl))))
    · exact absurd h (List.not_mem_nil oe)

/-- Membership in the filtered, projected calendar. -/
theorem mem_buildCalendar (input : CampaignInput) (strategy : Strategy)
    (assets : Assets) (ev : CalendarEvent) :
    ev ∈ buildCalendar input strategy assets ↔
      ∃ oe ∈ generatedPairs input assets, oe.1 ≤ input.durationDays ∧ ev = oe.2 := by
  unfold buildCalendar
  simp only [List.mem_map, List.mem_filter, decide_eq_true_eq]
  constructor
  · rintro ⟨oe, ⟨hmem, hle⟩, rfl⟩
    exact ⟨oe, hmem, hle, rfl⟩
  · rintro ⟨oe, hmem, hle, rfl⟩
    exact ⟨oe, ⟨hmem, hle⟩, rfl⟩

/-- Social posts in `buildAssets` output come only from the three social
    channels, each gated on its membership in the requested channels. -/
theorem mem_buildAssets_social (input : CampaignInput) (strategy : Strategy)
    (p : SocialPost) (h : p ∈ (buildAssets input strategy).social) :
    (Channel.linkedin ∈ input.channels ∧ p.channel = "LinkedIn") ∨
    (Channel.xTwitter ∈ input.channels ∧ p.channel = "X/Twitter") ∨
    (Channel.instagram ∈ input.channels ∧ p.channel = "Instagram") := by
  unfold buildAssets at h
  simp only [List.mem_append] at h
  rcases h with (h | h) | h
  · by_cases hc : Channel.linkedin ∈ input.channels
    · rw [if_pos hc] at h
      rcases List.mem_singleton.mp h with rfl
      exact Or.inl ⟨hc, rfl⟩
    · rw [if_neg hc] at h
      exact absurd h (List.not_mem_nil p)
  · by_cases hc : Channel.xTwitter ∈ input.channels
    · rw [if_pos hc] at h
      rcases List.mem_singleton.mp h with rfl
      exact Or.inr (Or.inl ⟨hc, rfl⟩)
    · rw [if_neg hc] at h
      exact absurd h (List.not_mem_nil p)
  · by_cases hc : Channel.instagram ∈ input.channels
    · rw [if_pos hc] at h
      rcases List.mem_singleton.mp h with rfl
      exact Or.inr (Or.inr ⟨hc, rfl⟩)
    · rw [if_neg hc] at h
      exact absurd h (List.not_mem_nil p)

/-! ### Helper lemmas: the channels-plan record -/

theorem recordSet_cons {α : Type} (k₀ : String) (v₀ : α) (rest : List (String × α))
    (k : String) (v : α) :
    recordSet ((k₀, v₀) :: rest) k v =
      if k₀ = k then (k, v) :: rest else (k₀, v₀) :: recordSet rest k v := rfl

theorem recordSet_keys_mem {α : Type} (m : List (String × α)) (k k' : String) (v : α) :
    k' ∈ (recordSet m k v).map Prod.fst ↔ k' ∈ m.map Prod.fst ∨ k' = k := by
  induction m with
  | nil => simp [recordSet]
  | cons kv rest ih =>
    obtain ⟨k₀, v₀⟩ := kv
    rw [recordSet_cons]
    by_cases hk : k₀ = k
    · rw [if_pos hk]
      simp only [List.map_cons, List.mem_cons, hk]
      tauto
    · rw [if_neg hk]
      simp only [List.map_cons, List.mem_cons, ih]
      tauto

theorem recordSet_keys_nodup {α : Type} (m : List (String × α)) (k : String) (v : α)
    (h : (m.map Prod.fst).Nodup) : ((recordSet m k v).map Prod.fst).Nodup := by
  induction m with
  | nil => simp [recordSet]
  | cons kv rest ih =>
    obtain ⟨k₀, v₀⟩ := kv
    simp only [List.map_cons, List.nodup_cons] at h
    rw [recordSet_cons]
    by_cases hk : k₀ = k
    · rw [if_pos hk]
      simp only [List.map_cons, List.nodup_cons]
      exact ⟨hk ▸ h.1, h.2⟩
    · rw [if_neg hk]
      simp only [List.map_cons, List.nodup_cons]
      refine ⟨?_, ih h.2⟩
      rw [recordSet_keys_mem]
      push_neg
      exact ⟨h.1, hk⟩

theorem recordSet_mem_entries {α : Type} (m : List (String × α)) (k : String) (v : α)
    (e : String × α) (h : e ∈ recordSet m k v) : e ∈ m ∨ e = (k, v) := by
  induction m with
  | nil => simpa [recordSet] using h
  | cons kv rest ih =>
    obtain ⟨k₀, v₀⟩ := kv
    rw [recordSet_cons] at h
    by_cases hk : k₀ = k
    · rw [if_pos hk] at h
      rcases List.mem_cons.mp h with h | h
      · exact Or.inr h
      · exact Or.inl (List.mem_cons_of_mem _ h)
    · rw [if_neg hk] at h
      rcases List.mem_cons.mp h with h | h
      · exact Or.inl (h ▸ List.mem_cons_self _ rest)
      · rcases ih h with h | h
        · exact Or.inl (List.mem_cons_of_mem _ h)
        · exact Or.inr h

theorem channelsPlan_foldl_keys (channels : List Channel) :
    ∀ (acc : List (String × ChannelPlan)) (k : String),
      (k ∈ (channels.foldl (fun m ch => recordSet m (channelName ch) (basePlan ch)) acc).map
          Prod.fst)
      ↔ k ∈ acc.map Prod.fst ∨ ∃ ch ∈ channels, channelName ch = k := by
  induction channels with
  | nil => intro acc k; simp
  | cons c cs ih =>
    intro acc k
    rw [List.foldl_cons, ih, recordSet_keys_mem]
    simp only [List.mem_cons]
    constructor
    · rintro ((h | h) | h)
      · exact Or.inl h
      · exact Or.inr ⟨c, Or.inl rfl, h.symm⟩
      · obtain ⟨ch, hm, hk⟩ := h
        exact Or.inr ⟨ch, Or.inr hm, hk⟩
    · rintro (h | ⟨ch, hm | hm, hk⟩)
      · exact Or.inl (Or.inl h)
      · exact Or.inl (Or.inr (by rw [hm] at hk; exact hk.symm))
      · exact Or.inr ⟨ch, hm, hk⟩

theorem channelsPlan_foldl_nodup (channels : List Channel) :
    ∀ acc : List (String × ChannelPlan), (acc.map Prod.fst).Nodup →
      ((channels.foldl (fun m ch => recordSet m (channelName ch) (basePlan ch)) acc).map
        Prod.fst).Nodup := by
  induction channels with
  | nil => intro acc h; simpa using h
  | cons c cs ih =>
    intro acc h
    rw [List.foldl_cons]
    exact ih _ (recordSet_keys_nodup acc (channelName c) (basePlan c) h)

theorem channelsPlan_foldl_entries (channels : List Channel) :
    ∀ acc : List (String × ChannelPlan),
      (∀ e ∈ acc, ∃ ch : Channel, e = (channelName ch, basePlan ch)) →
      ∀ e ∈ channels.foldl (fun m ch => recordSet m (channelName ch) (basePlan ch)) acc,
        ∃ ch : Channel, e = (channelName ch, basePlan ch) := by
  induction channels with
  | nil => intro acc h; simpa using h
  | cons c cs ih =>
    intro acc h
    rw [List.foldl_cons]
    refine ih _ ?_
    intro e he
    rcases recordSet_mem_entries acc (channelName c) (basePlan c) e he with h' | h'
    · exact h e h'
    · exact ⟨c, h'⟩

/-- The generated offsets do not depend on the landing URL (only the
    notes do). -/
theorem generatedPairs_map_fst (input : CampaignInput) (u : String) (assets : Assets) :
    (generatedPairs input assets).map Prod.fst =
      (generatedPairs { input with landingUrl := u } assets).map Prod.fst := by
  rw [generatedPairs_eq, generatedPairs_eq]
  simp only [List.map_cons, List.map_append, List.map_map,
    apply_ite (List.map Prod.fst), List.map_nil]
  rfl

/-- A landing URL never drops an event: the filtered calendar has the same
    length as with the landing URL cleared. -/
theorem buildCalendar_length_landingUrl (input : CampaignInput) (strategy : Strategy)
    (assets : Assets) :
    (buildCalendar input strategy assets).length =
      (buildCalendar { input with landingUrl := "" } strategy assets).length := by
  unfold buildCalendar
  rw [List.length_map, List.length_map, ← List.countP_eq_length_filter,
    ← List.countP_eq_length_filter]
  have h1 : (fun (oe : Nat × CalendarEvent) => decide (oe.1 ≤ input.durationDays)) =
      ((fun k => decide (k ≤ input.durationDays)) ∘ Prod.fst) := rfl
  rw [h1, ← List.countP_map, ← List.countP_map,
    generatedPairs_map_fst input "" assets]

/-! ### Claim theorems -/

/-- C1: `buildCalendar` generates events in this fixed order: the day-0
Website kickoff "Hero + proof update"; one "Social post" per entry of
`assets.social` in array order at days 1, 3, 5, …; if Email is requested,
events at day 2 and day 9 built from the two emails (subject as title,
preview as notes); if Ads is requested, an Ads event at day 1; then
unconditionally a day-7 LinkedIn "Carousel: what we learned".  Exactly the
events whose whole-day offset is ≤ `durationDays` are kept, in generation
order (no re-sorting by date). -/
theorem spec_C1 (input : CampaignInput) (strategy : Strategy) (assets : Assets) :
    buildCalendar input strategy assets =
      ((pushEvent input 0 "Website" "Hero + proof update" "Add headline and 3 logos" ::
        (assets.social.enum.map
            (fun ip => pushEvent input (1 + 2 * ip.1) ip.2.channel "Social post" ip.2.text) ++
          ((if Channel.email ∈ input.channels then
              [pushEvent input 2 "Email" assets.emails.1.subject assets.emails.1.preview,
               pushEvent input 9 "Email" assets.emails.2.subject assets.emails.2.preview]
            else []) ++
           ((if Channel.ads ∈ input.channels then
               [pushEvent input 1 "Ads" "Launch search + retargeting"
                  "Focus on high-intent terms"]
             else []) ++
            [pushEvent input 7 "LinkedIn" "Carousel: what we learned"
               "Founder POV, 5 slides"])))).filter
        (fun oe => oe.1 ≤ input.durationDays)).map Prod.snd := by
  unfold buildCalendar
  rw [generatedPairs_eq]

/-- C2: on the spec's example input (goal "Increase signups by 30% in 30
days", product "Acme Analytics", channels Website+Email, start 2024-01-01,
duration 14, empty landing URL) the pipeline yields a channels plan keyed
exactly Website and Email; a calendar with day offsets 0 (Website),
2 (Email), 9 (Email), 7 (LinkedIn) and nothing filtered out; a CSV of
exactly 5 newline-separated lines; and an ICS with exactly 4 VEVENT
blocks. -/
theorem spec_C2 :
    exampleStrategy.channelsPlan.map Prod.fst = ["Website", "Email"] ∧
    exampleCalendar.map (fun ev => (ev.date, ev.channel)) =
      [("2024-01-01T00:00:00.000Z", "Website"),
       ("2024-01-03T00:00:00.000Z", "Email"),
       ("2024-01-10T00:00:00.000Z", "Email"),
       ("2024-01-08T00:00:00.000Z", "LinkedIn")] ∧
    exampleCalendar.length = (generatedPairs exampleInput exampleAssets).length ∧
    (splitOnStr (toCalendarCsv exampleCalendar) "\n").length = 5 ∧
    (splitOnStr (buildIcs exampleCalendar) "BEGIN:VEVENT").length = 4 + 1 :=
  ⟨by decide, by decide, by decide, by decide, by decide⟩

/-- C3 counterexample: with `durationDays = 7` the unconditional day-7
LinkedIn recap is retained, and its date is startDate + 7 days — the closed
end of the window, not inside the half-open interval
[startDate, startDate + durationDays). -/
theorem spec_C3_counterexample :
    ¬ (∀ ev ∈ edgeCalendar, ∃ t, parseIso ev.date = some t ∧
        startOfDay edgeInput.startDate ≤ t ∧
        t < startOfDay edgeInput.startDate + edgeInput.durationDays * 86400) := by
  intro h
  have hmem : (⟨"1970-01-08T00:00:00.000Z", "LinkedIn", "Carousel: what we learned",
      "Founder POV, 5 slides"⟩ : CalendarEvent) ∈ edgeCalendar := by decide
  obtain ⟨t, hp, _, hlt⟩ := h _ hmem
  have hp' : parseIso "1970-01-08T00:00:00.000Z" = some 604800 := by decide
  rw [hp'] at hp
  have ht : t = 604800 := by injection hp with h'; omega
  subst ht
  exact absurd hlt (by decide)

/-- C3 (amended): every event of `buildCalendar` has a date in the CLOSED
window — it is `toISOString` of an instant between the start of day of
`startDate` and that start plus `durationDays` whole days inclusive;
events generated outside are dropped, never clamped. -/
theorem spec_C3_amended (input : CampaignInput) (strategy : Strategy) (assets : Assets)
    (ev : CalendarEvent) (h : ev ∈ buildCalendar input strategy assets) :
    ∃ t, ev.date = toISOString t ∧
      startOfDay input.startDate ≤ t ∧
      t ≤ startOfDay input.startDate + input.durationDays * 86400 := by
  obtain ⟨oe, hmem, hle, rfl⟩ := (mem_buildCalendar input strategy assets _).mp h
  obtain ⟨c, tt, n, hoe⟩ := mem_generatedPairs input assets oe hmem
  refine ⟨startOfDay input.startDate + oe.1 * 86400, ?_, Nat.le_add_right _ _, ?_⟩
  · conv_lhs => rw [hoe]
    exact pushEvent_date input oe.1 c tt n
  · have : oe.1 * 86400 ≤ input.durationDays * 86400 :=
      Nat.mul_le_mul_right 86400 hle
    omega

theorem spec_C3_amended_witness :
    ∃ t, (⟨"2024-01-01T00:00:00.000Z", "Website", "Hero + proof update",
        "Add headline and 3 logos"⟩ : CalendarEvent).date = toISOString t ∧
      startOfDay exampleInput.startDate ≤ t ∧
      t ≤ startOfDay exampleInput.startDate + exampleInput.durationDays * 86400 :=
  spec_C3_amended exampleInput exampleStrategy exampleAssets _ (by decide)

/-- C4: for every event of `buildCalendar` whose channel is not Website,
when the landing URL is non-empty the notes end with an appended line
`Link: {utmUrl}` where `utmUrl` carries `utm_source` = lowercased channel,
`utm_medium` = email/cpc/social by case-insensitive channel match,
`utm_campaign` = slug of the goal, `utm_content` = slug of the title; when
the landing URL fails to parse as an absolute URL, `buildUtmUrl` returns it
unchanged (fails soft, no exception), and the landing URL never changes how
many events survive (no event is dropped). -/
theorem spec_C4 (input : CampaignInput) (strategy : Strategy) (assets : Assets)
    (ev : CalendarEvent) (hmem : ev ∈ buildCalendar input strategy assets)
    (hch : ev.channel ≠ "Website") (hurl : input.landingUrl ≠ "") :
    (∃ base, ev.notes = base ++ "\nLink: " ++ buildUtmUrl input.landingUrl
        ⟨jsToLower ev.channel, utmMedium ev.channel, slugify input.goal,
         slugify ev.title⟩) ∧
    (parseUrl input.landingUrl = none →
      ∀ params : UtmParams, buildUtmUrl input.landingUrl params = input.landingUrl) ∧
    (buildCalendar input strategy assets).length =
      (buildCalendar { input with landingUrl := "" } strategy assets).length := by
  refine ⟨?_, ?_, buildCalendar_length_landingUrl input strategy assets⟩
  · obtain ⟨oe, hm, _, rfl⟩ := (mem_buildCalendar input strategy assets _).mp hmem
    obtain ⟨c, t, n, hoe⟩ := mem_generatedPairs input assets oe hm
    have hcc : oe.2.channel = c := by
      conv_lhs => rw [hoe]
      exact pushEvent_channel input oe.1 c t n
    have htt : oe.2.title = t := by
      conv_lhs => rw [hoe]
      exact pushEvent_title input oe.1 c t n
    have hnotes : oe.2.notes =
        if input.landingUrl ≠ "" ∧ c ≠ "Website" then
          n ++ "\nLink: " ++ buildUtmUrl input.landingUrl
            ⟨jsToLower c, utmMedium c, slugify input.goal, slugify t⟩
        else n := by
      conv_lhs => rw [hoe]
      exact pushEvent_notes input oe.1 c t n
    rw [hcc] at hch
    refine ⟨n, ?_⟩
    rw [hcc, htt, hnotes, if_pos ⟨hurl, hch⟩]
  · intro hp params
    unfold buildUtmUrl
    rw [hp]

theorem spec_C4_witness :
    ((⟨"1970-01-03T00:00:00.000Z", "Email", "P in 3 minutes: see what matters",
        "A quick walkthrough and a real case study\nLink: https://example.com/?utm_source=email&utm_medium=email&utm_campaign=grow-signups&utm_content=p-in-3-minutes-see-what-matters"⟩ :
        CalendarEvent) ∈ utmCalendar ∧
      utmInput.landingUrl ≠ "") ∧
    ((∃ base, (⟨"1970-01-03T00:00:00.000Z", "Email", "P in 3 minutes: see what matters",
        "A quick walkthrough and a real case study\nLink: https://example.com/?utm_source=email&utm_medium=email&utm_campaign=grow-signups&utm_content=p-in-3-minutes-see-what-matters"⟩ :
          CalendarEvent).notes =
        base ++ "\nLink: " ++ buildUtmUrl utmInput.landingUrl
          ⟨jsToLower "Email", utmMedium "Email", slugify utmInput.goal,
           slugify "P in 3 minutes: see what matters"⟩) ∧
     (parseUrl utmInput.landingUrl = none →
       ∀ params : UtmParams,
         buildUtmUrl utmInput.landingUrl params = utmInput.landingUrl) ∧
     (buildCalendar utmInput (buildStrategy utmInput)
         (buildAssets utmInput (buildStrategy utmInput))).length =
       (buildCalendar { utmInput with landingUrl := "" } (buildStrategy utmInput)
         (buildAssets utmInput (buildStrategy utmInput))).length) :=
  ⟨⟨by decide, by decide⟩,
   spec_C4 utmInput (buildStrategy utmInput)
     (buildAssets utmInput (buildStrategy utmInput)) _ (by decide) (by decide) (by decide)⟩

/-- C5: `toCalendarCsv` emits the header `date,channel,title,notes` and
one row per event in input order, joined by single newlines with no
trailing blank line; a field is quoted (wrapped in double quotes with
embedded quotes doubled) exactly when it contains a comma, double quote,
or newline, and is emitted verbatim otherwise — incl. the spec's two
round-trip examples. -/
theorem spec_C5 (events : List CalendarEvent) :
    toCalendarCsv events =
      String.intercalate "\n" ("date,channel,title,notes" ::
        events.map (fun ev =>
          String.intercalate ","
            ([ev.date, ev.channel, ev.title, ev.notes].map csvEscape))) ∧
    (∀ value : String,
      ((value.toList.contains ',' ∨ value.toList.contains '"' ∨
          value.toList.contains '\n') ∧
        csvEscape value = "\"" ++ doubleQuotes value ++ "\"") ∨
      (¬ (value.toList.contains ',' ∨ value.toList.contains '"' ∨
          value.toList.contains '\n') ∧
        csvEscape value = value)) ∧
    csvEscape "a, b" = "\"a, b\"" ∧
    csvEscape "He said \"hi\"" = "\"He said \"\"hi\"\"\"" := by
  refine ⟨?_, ?_, by decide, by decide⟩
  · unfold toCalendarCsv
    simp only [foldl_push_map]
    rfl
  · intro value
    by_cases h : value.toList.contains '"' ∨ value.toList.contains ',' ∨
        value.toList.contains '\n'
    · refine Or.inl ⟨by tauto, ?_⟩
      unfold csvEscape
      rw [if_pos h]
    · refine Or.inr ⟨by tauto, ?_⟩
      unfold csvEscape
      rw [if_neg h]

theorem spec_C5_witness :
    toCalendarCsv exampleCalendar =
      String.intercalate "\n" ("date,channel,title,notes" ::
        exampleCalendar.map (fun ev =>
          String.intercalate ","
            ([ev.date, ev.channel, ev.title, ev.notes].map csvEscape))) ∧
    csvEscape "a, b" = "\"a, b\"" :=
  ⟨(spec_C5 exampleCalendar).1, (spec_C5 exampleCalendar).2.2.1⟩

/-- C6: `buildIcs` emits the three VCALENDAR header lines, then for the
i-th event (0-based) a VEVENT block with UID `{i}-{dtStart}@campaign-agent`,
DTSTAMP = DTSTART = the event's date formatted in UTC as
`YYYYMMDDTHHmmssZ`, DTEND one hour later, SUMMARY `{channel}: {title}`,
DESCRIPTION the notes with newlines replaced by spaces, and finally
`END:VCALENDAR`, all joined by single `\n` (no CRLF, no folding). -/
theorem spec_C6 (events : List CalendarEvent) :
    buildIcs events =
      String.intercalate "\n"
        ((["BEGIN:VCALENDAR", "VERSION:2.0", "PRODID:-//Campaign Agent//EN"] ++
          events.enum.flatMap (fun ie =>
            ["BEGIN:VEVENT",
             "UID:" ++ toString ie.1 ++ "-" ++ icsDt ie.2.date ++ "@campaign-agent",
             "DTSTAMP:" ++ icsDt ie.2.date,
             "DTSTART:" ++ icsDt ie.2.date,
             "DTEND:" ++ icsDtEnd ie.2.date,
             "SUMMARY:" ++ ie.2.channel ++ ": " ++ ie.2.title,
             "DESCRIPTION:" ++ newlinesToSpaces ie.2.notes,
             "END:VEVENT"])) ++ ["END:VCALENDAR"]) ∧
    (∀ (s : String) (t : Nat), parseIso s = some t →
      icsDt s = icsStamp t ∧ icsDtEnd s = icsStamp (t + 3600)) := by
  constructor
  · unfold buildIcs
    simp only [foldl_push_flat]
  · intro s t hp
    unfold icsDt icsDtEnd
    rw [hp]
    exact ⟨rfl, rfl⟩

theorem spec_C6_witness :
    buildIcs exampleCalendar =
      String.intercalate "\n"
        ((["BEGIN:VCALENDAR", "VERSION:2.0", "PRODID:-//Campaign Agent//EN"] ++
          exampleCalendar.enum.flatMap (fun ie =>
            ["BEGIN:VEVENT",
             "UID:" ++ toString ie.1 ++ "-" ++ icsDt ie.2.date ++ "@campaign-agent",
             "DTSTAMP:" ++ icsDt ie.2.date,
             "DTSTART:" ++ icsDt ie.2.date,
             "DTEND:" ++ icsDtEnd ie.2.date,
             "SUMMARY:" ++ ie.2.channel ++ ": " ++ ie.2.title,
             "DESCRIPTION:" ++ newlinesToSpaces ie.2.notes,
             "END:VEVENT"])) ++ ["END:VCALENDAR"]) ∧
    (icsDt "2024-01-01T00:00:00.000Z" = icsStamp 1704067200 ∧
     icsDtEnd "2024-01-01T00:00:00.000Z" = icsStamp (1704067200 + 3600)) :=
  ⟨(spec_C6 exampleCalendar).1,
   (spec_C6 exampleCalendar).2 "2024-01-01T00:00:00.000Z" 1704067200 (by decide)⟩

/-- C7: `buildStrategy(input).channelsPlan` has exactly the requested
channels as keys (each key appears exactly once), and every entry carries a
non-empty objective, a non-empty strategy and a non-empty kpis list; no key
outside `input.channels` ever appears. -/
theorem spec_C7 (input : CampaignInput) :
    (∀ k : String, k ∈ (buildStrategy input).channelsPlan.map Prod.fst ↔
      ∃ ch ∈ input.channels, channelName ch = k) ∧
    ((buildStrategy input).channelsPlan.map Prod.fst).Nodup ∧
    (∀ e ∈ (buildStrategy input).channelsPlan,
      e.2.objective ≠ "" ∧ e.2.strategy ≠ "" ∧ e.2.kpis ≠ []) := by
  have hplan : (buildStrategy input).channelsPlan =
      input.channels.foldl
        (fun m ch => recordSet m (channelName ch) (basePlan ch)) [] := rfl
  refine ⟨?_, ?_, ?_⟩
  · intro k
    rw [hplan, channelsPlan_foldl_keys input.channels [] k]
    simp
  · rw [hplan]
    exact channelsPlan_foldl_nodup input.channels [] (by simp)
  · intro e he
    rw [hplan] at he
    obtain ⟨ch, rfl⟩ :=
      channelsPlan_foldl_entries input.channels [] (by simp) e he
    cases ch <;> exact ⟨by decide, by decide, by decide⟩

theorem spec_C7_witness :
    (("Website" ∈ (buildStrategy exampleInput).channelsPlan.map Prod.fst ↔
        ∃ ch ∈ exampleInput.channels, channelName ch = "Website") ∧
      ((buildStrategy exampleInput).channelsPlan.map Prod.fst).Nodup) ∧
    ((⟨"Website", basePlan .website⟩ : String × ChannelPlan) ∈
        (buildStrategy exampleInput).channelsPlan ∧
      (basePlan Channel.website).objective ≠ "" ∧
      (basePlan Channel.website).strategy ≠ "" ∧
      (basePlan Channel.website).kpis ≠ []) :=
  ⟨⟨(spec_C7 exampleInput).1 "Website", (spec_C7 exampleInput).2.1⟩,
   by decide, (spec_C7 exampleInput).2.2 ⟨"Website", basePlan .website⟩ (by decide)⟩

/-- C8: `buildAssets` depends only on the product name, audience, goal and
channels of the input and the value props and primary message of the
strategy — two calls agreeing on exactly those six fields return identical
assets. -/
theorem spec_C8 (i₁ i₂ : CampaignInput) (s₁ s₂ : Strategy)
    (h₁ : i₁.productName = i₂.productName) (h₂ : i₁.audience = i₂.audience)
    (h₃ : i₁.goal = i₂.goal) (h₄ : i₁.channels = i₂.channels)
    (h₅ : s₁.valueProps = s₂.valueProps)
    (h₆ : s₁.primaryMessage = s₂.primaryMessage) :
    buildAssets i₁ s₁ = buildAssets i₂ s₂ := by
  unfold buildAssets vp
  rw [h₁, h₂, h₃, h₄, h₅, h₆]

theorem spec_C8_witness :
    buildAssets exampleInput exampleStrategy =
      buildAssets
        { exampleInput with
          tone := "playful"
          budget := 999
          productDescription := "changed"
          startDate := 0
          durationDays := 3
          landingUrl := "https://other.example" }
        { exampleStrategy with
          personaSummary := "changed"
          channelsPlan := [] } :=
  spec_C8 _ _ _ _ rfl rfl rfl rfl rfl rfl

/-- C9 (code behaviour at the spec's failing point): the shipped source's
`bullets` prefixes every value proposition with the two characters `"? "`,
not with the bullet `"• "` the spec requires — the bulleted list of the
first email body therefore reads `? …` on every line.  (The other parts of
the claim hold: `adCopy` references `valueProps` at exactly indices 2 and 3,
and the second email body is a fixed narrative.) -/
theorem spec_C9_divergence :
    bullets standardValueProps =
      "? Set up in minutes, not weeks\n? Privacy-first by design\n? Crystal-clear funnels and cohort analysis\n? Actionable AI insights, not vanity metrics" ∧
    (∀ (i : CampaignInput) (s : Strategy),
      (buildAssets i s).adCopy =
        [i.productName ++ " helps " ++ jsToLower i.audience ++ " " ++
           jsToLower i.goal ++ ". " ++ s.valueProps.getD 2 "undefined" ++
           ". Start in minutes.",
         "Stop drowning in dashboards. " ++ i.productName ++
           " surfaces what moves the needle. " ++
           s.valueProps.getD 3 "undefined" ++ "."] ∧
      (buildAssets i s).emails.2.body =
        "Quick story: a SaaS team found a 24% activation lift after seeing a drop-off cohort at Day 2. They added an in-app nudge based on our insight.\n\nIt took an afternoon. Results stuck.\n\nCurious what your data says? Happy to take a look and share a 1-pager.") :=
  ⟨by decide, fun i s => ⟨rfl, rfl⟩⟩

/-- C10: every event of the composed pipeline (assets built by
`buildAssets` from the same input) has a channel that is either one of the
requested channels or one of the two literals "Website" and "LinkedIn",
which are emitted unconditionally. -/
theorem spec_C10 (input : CampaignInput) (strategy : Strategy) (ev : CalendarEvent)
    (h : ev ∈ buildCalendar input strategy (buildAssets input strategy)) :
    ev.channel ∈ input.channels.map channelName ∨
    ev.channel = "Website" ∨ ev.channel = "LinkedIn" := by
  obtain ⟨oe, hmem, _, rfl⟩ :=
    (mem_buildCalendar input strategy (buildAssets input strategy) _).mp h
  rcases mem_generatedPairs_channel input (buildAssets input strategy) oe hmem with
    h | (⟨p, hp, hc⟩ | (⟨hin, hc⟩ | (⟨hin, hc⟩ | h)))
  · exact Or.inr (Or.inl h)
  · rcases mem_buildAssets_social input strategy p hp with
      ⟨hin, hch⟩ | (⟨hin, hch⟩ | ⟨hin, hch⟩) <;>
    · refine Or.inl ?_
      rw [hc, hch]
      exact List.mem_map_of_mem channelName hin
  · refine Or.inl ?_
    rw [hc]
    exact List.mem_map_of_mem channelName hin
  · refine Or.inl ?_
    rw [hc]
    exact List.mem_map_of_mem channelName hin
  · exact Or.inr (Or.inr h)

theorem spec_C10_witness :
    (⟨"2024-01-08T00:00:00.000Z", "LinkedIn", "Carousel: what we learned",
        "Founder POV, 5 slides"⟩ : CalendarEvent).channel ∈
        exampleInput.channels.map channelName ∨
    (⟨"2024-01-08T00:00:00.000Z", "LinkedIn", "Carousel: what we learned",
        "Founder POV, 5 slides"⟩ : CalendarEvent).channel = "Website" ∨
    (⟨"2024-01-08T00:00:00.000Z", "LinkedIn", "Carousel: what we learned",
        "Founder POV, 5 slides"⟩ : CalendarEvent).channel = "LinkedIn" :=
  spec_C10 exampleInput exampleStrategy _ (by decide)

end Agent
